import Mathlib

/-!
Shallow embedding of `src/bpc.rs` (bpcsync): the BPC time-code encoder
(`BPC::code`, `BPC::signal_width`) and the synchronized waveform generator
(`BPCWaveInner::update`, `BPCWaveInner::next`, the updater thread's sleep
computation in `BPCWave::new`), together with theorems settling the spec
claims against this embedding.

Conventions:
- Rust `u32`/`usize` values become `Nat`; `i32` (chrono's year) becomes `Int`,
  with Mathlib's two's-complement `Int.land` / `Int.lor` / arithmetic shifts.
- A Rust panic (`unreachable!()`, `.unwrap()` on `None`) is modelled as the
  outer `none` of an `Option` result.
- `f32` samples are modelled as real numbers.
-/

namespace Bpcsync

/-- Fields of a chrono `DateTime<FixedOffset>` as read by `BPC::code`:
`year()` (i32), `month()` (1..12), `day()` (1..31),
`weekday().number_from_monday()` (1..7), `hour12()` = (pm, hour 1..12),
`minute()` (0..59), `second()` (0..59). -/
structure ZonedDateTime where
  year : Int
  month : Nat
  day : Nat
  weekday : Nat
  pm : Bool
  hour : Nat
  minute : Nat
  second : Nat
deriving DecidableEq

/-- The ranges chrono guarantees for the fields read by the encoder, with the
two-digit year restricted to [0,99] as in the claims. -/
def Valid (t : ZonedDateTime) : Prop :=
  1 ≤ t.month ∧ t.month ≤ 12 ∧ 1 ≤ t.day ∧ t.day ≤ 31 ∧
  1 ≤ t.weekday ∧ t.weekday ≤ 7 ∧ 1 ≤ t.hour ∧ t.hour ≤ 12 ∧
  t.minute ≤ 59 ∧ t.second ≤ 59 ∧ 2000 ≤ t.year ∧ t.year ≤ 2099

instance (t : ZonedDateTime) : Decidable (Valid t) := by
  unfold Valid; infer_instance

/-- Rust `u32::count_ones`, as a 32-bit popcount (all operands fed to it in
the source are `u32` values, hence `< 2^32`). -/
def countOnesAux : Nat → Nat → Nat
  | 0, _ => 0
  | fuel + 1, n => n % 2 + countOnesAux fuel (n / 2)

/-- Number of set bits of `n` viewed as a `u32` (Rust `count_ones`). -/
def count_ones (n : Nat) : Nat := countOnesAux 32 n

/-- Rust `Iterator::reduce` with the closure `|acc, e| acc + e.count_ones()`
used in fragments 10 and 19 of `BPC::code`: the FIRST element seeds the
accumulator unchanged (its own `count_ones` is never taken). -/
def reduceCountOnes : List Nat → Option Nat
  | [] => none
  | x :: xs => some (xs.foldl (fun acc e => acc + count_ones e) x)

/-- Shallow embedding of `BPC::code` (src/bpc.rs lines 40-180).
Result: `none` = panic (an `unreachable!()` branch or a failing `unwrap`),
`some none` = no symbol (Rust `None`), `some (some v)` = Rust `Some(v)`. -/
def code (now : ZonedDateTime) : Option (Option Nat) :=
  let year : Int := now.year - 2000
  let fragment := now.second % 20
  match fragment with
  | 0 => some none
  | 1 =>
    match now.second with
    | 1 => some (some 0)
    | 21 => some (some 1)
    | 41 => some (some 2)
    | _ => none
  | 2 => some (some 0)
  | 3 => some (some (now.hour >>> 2))
  | 4 => some (some (now.hour &&& 3))
  | 5 => some (some (now.minute >>> 4))
  | 6 => some (some ((now.minute >>> 2) &&& 3))
  | 7 => some (some (now.minute &&& 3))
  | 8 => some (some (now.weekday >>> 2))
  | 9 => some (some (now.weekday &&& 3))
  | 10 =>
    let v : Nat := if now.pm then 2 else 0
    let s? : Option Nat :=
      if 1 ≤ now.second ∧ now.second ≤ 20 then some 0
      else if 21 ≤ now.second ∧ now.second ≤ 40 then some 1
      else if 41 ≤ now.second ∧ now.second ≤ 59 then some 3
      else none
    match s? with
    | none => none
    | some s =>
      match reduceCountOnes [s, now.hour, now.minute, now.weekday] with
      | none => none
      | some c => some (some (v ||| (if c % 2 = 0 then 0 else 1)))
  | 11 => some (some (now.day >>> 4))
  | 12 => some (some ((now.day >>> 2) &&& 3))
  | 13 => some (some (now.day &&& 3))
  | 14 => some (some (now.month >>> 2))
  | 15 => some (some (now.month &&& 3))
  | 16 => some (some ((Int.land (year >>> (4 : Int)) 3).toNat))
  | 17 => some (some ((Int.land (year >>> (2 : Int)) 3).toNat))
  | 18 => some (some ((Int.land year 3).toNat))
  | 19 =>
    let year_highest : Int := Int.land (year >>> (6 : Int)) 1
    let v : Int := year_highest <<< (1 : Int)
    match reduceCountOnes [now.day, now.month, (Int.land year 63).toNat] with
    | none => none
    | some c => some (some ((Int.lor v (if c % 2 = 0 then 0 else 1)).toNat))
  | _ => none

/-- The symbol-to-pulse-width match arms of `BPC::signal_width` (lines 27-38):
0→100ms, 1→200ms, 2→300ms, 3→400ms, blank→no width; any other symbol hits
`unreachable!()` (modelled as the outer `none`). -/
def symbolWidth : Option Nat → Option (Option Nat)
  | some 0 => some (some 100)
  | some 1 => some (some 200)
  | some 2 => some (some 300)
  | some 3 => some (some 400)
  | none => some none
  | some _ => none

/-- Shallow embedding of `BPC::signal_width`: dispatch `symbolWidth` on the
encoder output, propagating a panic from either. -/
def signal_width (t : ZonedDateTime) : Option (Option Nat) :=
  match code t with
  | none => none
  | some s => symbolWidth s

/-- `const SAMPLE_RATE: u32 = 44100` of src/bpc.rs. -/
def SAMPLE_RATE : Nat := 44100

/-- `const BPC_FREQ: u32 = 68500` of src/bpc.rs. -/
def BPC_FREQ : Nat := 68500

/-- Mutable fields of `BPCWaveInner` (the `bpc: BPC` field is a unit struct
and carries no state; `updating` is the `Arc<AtomicBool>` value). -/
structure BPCWaveInner where
  num_samples : Nat
  pivot : Nat
  updating : Bool
deriving DecidableEq

/-- `BPCWaveInner::new`: counter 0, pivot 0, updating false. -/
def BPCWaveInner.init : BPCWaveInner := ⟨0, 0, false⟩

/-- `BPCWaveInner::update` (lines 203-208): stores `updating = true`, sets
`pivot = signal_width(t).unwrap_or(0) * SAMPLE_RATE / 1000` and
`num_samples = 0`, then stores `updating = false`; the returned state is the
net effect of a completed call.  `none` models a panic propagating out of
`signal_width`. -/
def BPCWaveInner.update (st : BPCWaveInner) (t : ZonedDateTime) : Option BPCWaveInner :=
  match signal_width t with
  | none => none
  | some w =>
    some { st with
           num_samples := 0,
           pivot := w.getD 0 * SAMPLE_RATE / 1000,
           updating := false }

/-- State effect of one call to `BPCWaveInner::next` (lines 214-228): the
early return on `updating` leaves the counter untouched, otherwise
`num_samples += 1`. -/
def BPCWaveInner.nextState (st : BPCWaveInner) : BPCWaveInner :=
  if st.updating then st else { st with num_samples := st.num_samples + 1 }

/-- Sample emitted by one call to `BPCWaveInner::next`: `1.0` while updating;
otherwise, with `n` the incremented counter and `fc = BPC_FREQ / 5`,
`sin(2*pi*fc*n/SAMPLE_RATE)` when `n >= pivot` and `0.0` when `n < pivot`.
Rust `f32` samples are modelled as real numbers. -/
noncomputable def BPCWaveInner.nextSample (st : BPCWaveInner) : ℝ :=
  if st.updating then 1
  else
    let n := st.num_samples + 1
    let fc : Nat := BPC_FREQ / 5
    let value : ℝ := 2 * Real.pi * (fc : ℝ) * (n : ℝ) / (SAMPLE_RATE : ℝ)
    if st.pivot ≤ n then Real.sin value else 0

/-- State after `i` consecutive calls to `next` starting from `st`. -/
def stateAfter (st : BPCWaveInner) : Nat → BPCWaveInner
  | 0 => st
  | i + 1 => (stateAfter st i).nextState

/-- The `i`-th sample (0-indexed) of the stream of consecutive `next` calls
starting from `st`. -/
noncomputable def sampleAt (st : BPCWaveInner) (i : Nat) : ℝ :=
  (stateAfter st i).nextSample

/-- Chrono `timestamp_subsec_micros()` of a clock reading given in
nanoseconds since the epoch. -/
def timestamp_subsec_micros (nowNanos : Nat) : Nat :=
  nowNanos % 1000000000 / 1000

/-- The updater thread's per-cycle sleep computation in `BPCWave::new`
(line 243): `delta = 1_000_000 - now.timestamp_subsec_micros()`. -/
def sleep_micros (nowNanos : Nat) : Nat :=
  1000000 - timestamp_subsec_micros nowNanos

/-- The instant (in nanoseconds) at which the updater's sleep ends. -/
def wake_target_nanos (nowNanos : Nat) : Nat :=
  nowNanos + 1000 * sleep_micros nowNanos

/-- The true next whole-second boundary after the clock reading. -/
def next_second_boundary (nowNanos : Nat) : Nat :=
  (nowNanos / 1000000000 + 1) * 1000000000

/-- An operation on the shared `Mutex<BPCWaveInner>` state: either a completed
`update` by the background thread or a completed `next` by the renderer; the
mutex serializes them, so an execution is a sequence of completed calls. -/
inductive Op where
  | update (t : ZonedDateTime)
  | next
deriving DecidableEq

/-- Effect of one completed operation on the shared state.  An update whose
timestamp would make `signal_width` panic does not complete; its `getD`
fallback is dead under the hypothesis of the C10 theorem. -/
def applyOp (st : BPCWaveInner) : Op → BPCWaveInner
  | Op.update t => (BPCWaveInner.update st t).getD st
  | Op.next => st.nextState

/-- Shared state after a sequence of completed calls starting from `new()`. -/
def runOps (ops : List Op) : BPCWaveInner :=
  ops.foldl applyOp BPCWaveInner.init

/-- Predicate on an encoder result: no panic, and any symbol is a 2-bit value.
Arms: panic, blank, symbol. -/
def symbolOK : Option (Option Nat) → Prop
  | none => False
  | some none => True
  | some (some s) => s < 4

/-- Failing input for C1: 2024-03-02 (a Saturday), 01:00:19 am.  At second 19
(fragment 19) the `reduce` seeds the parity accumulator with the day VALUE
(2, even) instead of its popcount (1, odd). -/
def t19bug : ZonedDateTime := ⟨2024, 3, 2, 6, false, 1, 0, 19⟩

/-- Failing input for C2: 2024-01-01 (a Monday), 01:00:50 am.  At second 50
(fragment 10) the `reduce` seeds the parity accumulator with the
second-range-code VALUE (3, odd) instead of its popcount (2, even). -/
def t50bug : ZonedDateTime := ⟨2024, 1, 1, 1, false, 1, 0, 50⟩

/-- Valid timestamp with second 3 and hour 9: fragment 3 yields symbol
`9 >> 2 = 2`, pulse width 300 ms (2024-03-15 is a Friday, weekday 5). -/
def t300 : ZonedDateTime := ⟨2024, 3, 15, 5, false, 9, 7, 3⟩

/-- Valid timestamp with second 0 (the frame marker slot). -/
def tBlank : ZonedDateTime := ⟨2024, 3, 15, 5, true, 2, 7, 0⟩

/-! Helper lemmas about the bit operations used by the encoder. -/

theorem shr2_eq_div (n : Nat) : n >>> 2 = n / 4 := by
  rw [Nat.shiftRight_eq_div_pow]

theorem shr4_eq_div (n : Nat) : n >>> 4 = n / 16 := by
  rw [Nat.shiftRight_eq_div_pow]

theorem shr6_eq_div (n : Nat) : n >>> 6 = n / 64 := by
  rw [Nat.shiftRight_eq_div_pow]

theorem and3_eq_mod (n : Nat) : n &&& 3 = n % 4 := by
  have h := Nat.and_pow_two_sub_one_eq_mod n 2
  norm_num at h
  exact h

theorem and1_eq_mod (n : Nat) : n &&& 1 = n % 2 := Nat.and_one_is_mod n

theorem and63_eq_mod (n : Nat) : n &&& 63 = n % 64 := by
  have h := Nat.and_pow_two_sub_one_eq_mod n 6
  norm_num at h
  exact h

theorem and3_lt (n : Nat) : n &&& 3 < 4 := by
  rw [and3_eq_mod]; omega

theorem shr2_lt {n : Nat} (h : n ≤ 12) : n >>> 2 < 4 := by
  rw [shr2_eq_div]; omega

theorem shr4_lt {n : Nat} (h : n ≤ 59) : n >>> 4 < 4 := by
  rw [shr4_eq_div]; omega

theorem lt_four_zero : (0 : Nat) < 4 := by decide

theorem lt_four_one : (1 : Nat) < 4 := by decide

theorem lt_four_two : (2 : Nat) < 4 := by decide

theorem int_shr2 (m : Nat) : (m : Int) >>> (2 : Int) = ((m >>> 2 : Nat) : Int) := rfl

theorem int_shr4 (m : Nat) : (m : Int) >>> (4 : Int) = ((m >>> 4 : Nat) : Int) := rfl

theorem int_shr6 (m : Nat) : (m : Int) >>> (6 : Int) = ((m >>> 6 : Nat) : Int) := rfl

theorem int_land3 (m : Nat) : Int.land (m : Int) 3 = ((m &&& 3 : Nat) : Int) := rfl

theorem int_land1 (m : Nat) : Int.land (m : Int) 1 = ((m &&& 1 : Nat) : Int) := rfl

theorem int_land63 (m : Nat) : Int.land (m : Int) 63 = ((m &&& 63 : Nat) : Int) := rfl

theorem int_lor_nat (x y : Nat) : Int.lor (x : Int) (y : Int) = ((x ||| y : Nat) : Int) := rfl

theorem int_toNat_nat (m : Nat) : ((m : Int)).toNat = m := rfl

theorem int_shl1 (b : Nat) : ((b : Int)) <<< (1 : Int) = ((b <<< 1 : Nat) : Int) := by
  rw [← Nat.shiftLeft'_false]
  rfl

theorem ldiff3_lt (m : Nat) : Nat.ldiff 3 m < 4 := by
  have h : Nat.ldiff 3 m < 2 ^ 2 := by
    apply Nat.lt_pow_two_of_testBit
    intro i hi
    rw [Nat.testBit_ldiff]
    have h3 : Nat.testBit 3 i = false := by
      apply Nat.testBit_lt_two_pow
      calc 3 < 2 ^ 2 := by norm_num
        _ ≤ 2 ^ i := Nat.pow_le_pow_right (by norm_num) hi
    simp [h3]
  simpa using h

theorem ldiff1_lt (m : Nat) : Nat.ldiff 1 m < 2 := by
  have h : Nat.ldiff 1 m < 2 ^ 1 := by
    apply Nat.lt_pow_two_of_testBit
    intro i hi
    rw [Nat.testBit_ldiff]
    have h1 : Nat.testBit 1 i = false := by
      apply Nat.testBit_lt_two_pow
      calc 1 < 2 ^ 1 := by norm_num
        _ ≤ 2 ^ i := Nat.pow_le_pow_right (by norm_num) hi
    simp [h1]
  simpa using h

theorem land3_toNat_lt (z : Int) : (Int.land z 3).toNat < 4 := by
  cases z with
  | ofNat m => exact and3_lt m
  | negSucc m => exact ldiff3_lt m

theorem land1_cases (w : Int) : Int.land w 1 = 0 ∨ Int.land w 1 = 1 := by
  cases w with
  | ofNat m =>
    have h : Int.land (Int.ofNat m) 1 = ((m &&& 1 : Nat) : Int) := rfl
    rw [h, Nat.and_one_is_mod]
    rcases Nat.mod_two_eq_zero_or_one m with h2 | h2 <;> rw [h2] <;> simp
  | negSucc m =>
    have h : Int.land (Int.negSucc m) 1 = ((Nat.ldiff 1 m : Nat) : Int) := rfl
    rw [h]
    have hlt := ldiff1_lt m
    have h01 : Nat.ldiff 1 m = 0 ∨ Nat.ldiff 1 m = 1 := by omega
    rcases h01 with h01 | h01 <;> rw [h01] <;> simp

theorem frag19_lt (z : Int) (c : Nat) :
    (Int.lor ((Int.land (z >>> (6 : Int)) 1) <<< (1 : Int))
      (if c % 2 = 0 then (0 : Int) else 1)).toNat < 4 := by
  rcases land1_cases (z >>> (6 : Int)) with h | h <;> rw [h] <;>
    by_cases hc : c % 2 = 0 <;> simp only [hc, if_true, if_false] <;> decide

theorem frag10_lt (pm : Bool) (c : Nat) :
    ((if pm then 2 else 0) ||| (if c % 2 = 0 then 0 else 1)) < 4 := by
  cases pm <;> by_cases hc : c % 2 = 0 <;> simp only [hc, if_true, if_false] <;> decide

set_option maxHeartbeats 2000000 in
theorem symbolOK_code_fields (y : Int) (mo d wd : Nat) (pm : Bool) (h mi s : Nat)
    (hmo2 : mo ≤ 12) (hd2 : d ≤ 31) (hwd2 : wd ≤ 7) (hh2 : h ≤ 12)
    (hmi : mi ≤ 59) (hs : s ≤ 59) :
    symbolOK (code ⟨y, mo, d, wd, pm, h, mi, s⟩) := by
  interval_cases s <;>
    simp [code, symbolOK, reduceCountOnes] <;>
    first
      | trivial
      | exact frag10_lt pm _
      | exact frag19_lt _ _
      | exact land3_toNat_lt _
      | exact and3_lt _
      | exact shr2_lt hh2
      | exact shr2_lt hmo2
      | exact shr2_lt (show wd ≤ 12 by omega)
      | exact shr4_lt hmi
      | exact shr4_lt (show d ≤ 59 by omega)

theorem symbolOK_code (t : ZonedDateTime) (hv : Valid t) : symbolOK (code t) := by
  obtain ⟨y, mo, d, wd, pm, h, mi, s⟩ := t
  unfold Valid at hv
  obtain ⟨h1, h2, h3, h4, h5, h6, h7, h8, h9, h10, h11, h12⟩ := hv
  exact symbolOK_code_fields y mo d wd pm h mi s h2 h4 h6 h8 h9 h10

theorem signal_width_some (t : ZonedDateTime) (hv : Valid t) :
    ∃ w, signal_width t = some w := by
  have h := symbolOK_code t hv
  rcases hc : code t with _ | r
  · rw [hc] at h; exact h.elim
  · rcases r with _ | sv
    · exact ⟨none, by simp [signal_width, hc, symbolWidth]⟩
    · rw [hc] at h
      have hlt : sv < 4 := h
      have hsw : signal_width t = symbolWidth (some sv) := by
        simp [signal_width, hc]
      rw [hsw]
      interval_cases sv <;> exact ⟨_, rfl⟩

/-- C1: the claimed fragment-19 parity (even parity of the popcounts of day,
month and `year & 0b111111`) disagrees with the code at `t19bug`
(2024-03-02 01:00:19): the code's `reduce` seeds the accumulator with the raw
day value, so it returns symbol 0 while the claimed parity bit is 1 (the
claimed symbol would be 1). -/
theorem claim_C1_frag19_eval :
    code t19bug = some (some 0) ∧
    (count_ones t19bug.day + count_ones t19bug.month +
      count_ones ((Int.land (t19bug.year - 2000) 63).toNat)) % 2 = 1 :=
  ⟨by decide, by decide⟩

/-- C2: the claimed fragment-10 parity (even parity of the popcounts of the
second-range-code, hour12, minute and weekday) disagrees with the code at
`t50bug` (2024-01-01 01:00:50): the code's `reduce` seeds the accumulator
with the raw second-range-code 3, so it returns symbol 1 while the claimed
parity bit is 0 (the claimed symbol would be 0). -/
theorem claim_C2_frag10_eval :
    code t50bug = some (some 1) ∧
    (count_ones 3 + count_ones t50bug.hour + count_ones t50bug.minute +
      count_ones t50bug.weekday) % 2 = 0 :=
  ⟨by decide, by decide⟩

/-- C7: for every timestamp with in-range calendar fields the encoder never
panics and only produces blank or a symbol in 0..3, hence the width mapping's
`unreachable` branch (and every `unreachable` inside the dispatch) is dead. -/
theorem claim_C7_no_unreachable (t : ZonedDateTime) (hv : Valid t) :
    code t ≠ none ∧ (∀ s, code t = some (some s) → s < 4) ∧
    signal_width t ≠ none := by
  have h := symbolOK_code t hv
  obtain ⟨w, hw⟩ := signal_width_some t hv
  refine ⟨?_, ?_, ?_⟩
  · intro hc; rw [hc] at h; exact h.elim
  · intro s hs; rw [hs] at h; exact h
  · rw [hw]; exact Option.some_ne_none w

/-- C7 witness: the generic theorem applied at the concrete timestamp
`t300`. -/
theorem claim_C7_witness :
    code t300 ≠ none ∧ (∀ s, code t300 = some (some s) → s < 4) ∧
    signal_width t300 ≠ none :=
  claim_C7_no_unreachable t300 (by decide)

/-- C6: the symbol-to-pulse-width mapping sends 0/1/2/3 to 100/200/300/400 ms
and blank to no width, and any timestamp with second 0 encodes to blank with
no pulse width. -/
theorem claim_C6_width_map :
    symbolWidth (some 0) = some (some 100) ∧
    symbolWidth (some 1) = some (some 200) ∧
    symbolWidth (some 2) = some (some 300) ∧
    symbolWidth (some 3) = some (some 400) ∧
    symbolWidth none = some none ∧
    ∀ t : ZonedDateTime, t.second = 0 →
      code t = some none ∧ signal_width t = some none := by
  refine ⟨rfl, rfl, rfl, rfl, rfl, ?_⟩
  intro t h
  obtain ⟨y, mo, d, wd, pm, hh, mi, s⟩ := t
  have hs : s = 0 := h
  subst hs
  exact ⟨rfl, rfl⟩

/-- C6 witness: the second-0 part of the theorem at the concrete timestamp
`tBlank`. -/
theorem claim_C6_witness :
    code tBlank = some none ∧ signal_width tBlank = some none :=
  claim_C6_width_map.2.2.2.2.2 tBlank rfl

/-- C4: for every valid timestamp the per-second update completes, resets the
counter to 0, leaves the updating flag clear, sets the pivot to
`pulseWidthMs * 44100 / 1000` (truncating division; 100 ms gives exactly
4410 samples) and sets it to 0 for a blank symbol. -/
theorem claim_C4_update_pivot (st : BPCWaveInner) (t : ZonedDateTime)
    (hv : Valid t) :
    ∃ st2, BPCWaveInner.update st t = some st2 ∧
      st2.num_samples = 0 ∧ st2.updating = false ∧
      (signal_width t = some none → st2.pivot = 0) ∧
      (∀ w, signal_width t = some (some w) → st2.pivot = w * 44100 / 1000) ∧
      100 * 44100 / 1000 = 4410 := by
  obtain ⟨w, hw⟩ := signal_width_some t hv
  refine ⟨⟨0, w.getD 0 * SAMPLE_RATE / 1000, false⟩, ?_, rfl, rfl, ?_, ?_, by norm_num⟩
  · simp [BPCWaveInner.update, hw]
  · intro hb
    rw [hw] at hb
    injection hb with hb
    subst hb
    rfl
  · intro w2 hw2
    rw [hw] at hw2
    injection hw2 with hw2
    subst hw2
    rfl

/-- C4 witness: updating from any state at the concrete timestamp `t300`
(pulse width 300 ms) yields counter 0 and pivot 300 · 44100 / 1000. -/
theorem claim_C4_witness :
    ∃ st2, BPCWaveInner.update BPCWaveInner.init t300 = some st2 ∧
      st2.num_samples = 0 ∧ st2.updating = false ∧
      (signal_width t300 = some none → st2.pivot = 0) ∧
      (∀ w, signal_width t300 = some (some w) → st2.pivot = w * 44100 / 1000) ∧
      100 * 44100 / 1000 = 4410 :=
  claim_C4_update_pivot BPCWaveInner.init t300 (by decide)

/-- C3: each renderer call emits 1.0 and leaves the state untouched while the
updating flag is set; otherwise it increments the counter and, with `n` the
incremented counter, emits `sin(2*pi*(68500/5)*n/44100)` when `n >= pivot`
and 0.0 when `n < pivot`. -/
theorem claim_C3_renderer_step (st : BPCWaveInner) :
    st.nextSample =
      (if st.updating then 1
       else if st.pivot ≤ st.num_samples + 1 then
         Real.sin (2 * Real.pi * ((68500 / 5 : Nat) : ℝ) *
           ((st.num_samples + 1 : Nat) : ℝ) / 44100)
       else 0) ∧
    st.nextState =
      (if st.updating then st
       else { st with num_samples := st.num_samples + 1 }) :=
  ⟨rfl, rfl⟩

/-- C9: each updater cycle sleeps for exactly 1,000,000 minus the sub-second
microsecond remainder of the current clock reading, so the wake target always
lands within one sample period (1 s / 44100) after the true next-second
boundary, independently of any earlier jitter. -/
theorem claim_C9_sleep_alignment (nowNanos : Nat) :
    sleep_micros nowNanos = 1000000 - nowNanos % 1000000000 / 1000 ∧
    next_second_boundary nowNanos ≤ wake_target_nanos nowNanos ∧
    wake_target_nanos nowNanos - next_second_boundary nowNanos ≤
      1000000000 / SAMPLE_RATE := by
  simp only [wake_target_nanos, next_second_boundary, sleep_micros,
    timestamp_subsec_micros, SAMPLE_RATE]
  refine ⟨?_, ?_, ?_⟩ <;> first | trivial | omega

theorem stateAfter_steady (st : BPCWaveInner) (h : st.updating = false)
    (i : Nat) : stateAfter st i = ⟨st.num_samples + i, st.pivot, false⟩ := by
  induction i with
  | zero =>
    obtain ⟨n, p, u⟩ := st
    have hu : u = false := h
    subst hu
    rfl
  | succ i ih =>
    unfold stateAfter
    rw [ih]
    rfl

theorem sampleAt_steady (st : BPCWaveInner) (h : st.updating = false)
    (i : Nat) :
    sampleAt st i =
      (if st.pivot ≤ st.num_samples + i + 1 then
        Real.sin (2 * Real.pi * ((68500 / 5 : Nat) : ℝ) *
          ((st.num_samples + i + 1 : Nat) : ℝ) / 44100)
       else 0) := by
  unfold sampleAt
  rw [stateAfter_steady st h i]
  rfl

/-- C5 (amended): after an update whose pulse width is 300 ms at 44100 Hz the
pivot is 13230, so the samples at indices 0 through 13228 equal 0.0 and the
sample at index `i ≥ 13229` equals `sin(2*pi*13700*(i+1)/44100)` (the counter
is incremented before the comparison, so index `i` carries counter `i+1`). -/
theorem claim_C5_envelope_300ms (st st2 : BPCWaveInner) (t : ZonedDateTime)
    (hw : signal_width t = some (some 300))
    (hu : BPCWaveInner.update st t = some st2) (i : Nat) :
    st2.pivot = 13230 ∧
    (i < 13229 → sampleAt st2 i = 0) ∧
    (13229 ≤ i → sampleAt st2 i =
      Real.sin (2 * Real.pi * 13700 * ((i + 1 : Nat) : ℝ) / 44100)) := by
  have hst2 : st2 = ⟨0, 13230, false⟩ := by
    unfold BPCWaveInner.update at hu
    rw [hw] at hu
    injection hu with hu
    rw [← hu]
    rfl
  subst hst2
  have hsa := sampleAt_steady ⟨0, 13230, false⟩ rfl i
  simp only at hsa
  refine ⟨rfl, ?_, ?_⟩
  · intro hi
    rw [hsa, if_neg (by omega)]
  · intro hi
    rw [hsa, if_pos (by omega)]
    norm_num

/-- C5 witness for the amended theorem: at index 5 the emitted sample is 0. -/
theorem claim_C5_witness : sampleAt ⟨0, 13230, false⟩ 5 = 0 :=
  (claim_C5_envelope_300ms BPCWaveInner.init ⟨0, 13230, false⟩ t300
    (by decide) (by decide) 5).2.1 (by norm_num)

/-- C5 counterexample: the claim as stated places the pulse boundary at 3630,
but after a 300 ms update the pivot is 13230; at index 5000 the code emits
0.0 while the claimed value `sin(2*pi*13700*5000/44100)` is nonzero. -/
theorem claim_C5_counterexample :
    BPCWaveInner.update BPCWaveInner.init t300 = some ⟨0, 13230, false⟩ ∧
    sampleAt ⟨0, 13230, false⟩ 5000 = 0 ∧
    Real.sin (2 * Real.pi * 13700 * ((5000 : Nat) : ℝ) / 44100) ≠ 0 := by
  refine ⟨by decide, ?_, ?_⟩
  · have hsa := sampleAt_steady ⟨0, 13230, false⟩ rfl 5000
    simp only at hsa
    rw [hsa, if_neg (by omega)]
  · intro hzero
    rw [Real.sin_eq_zero_iff] at hzero
    obtain ⟨k, hk⟩ := hzero
    have hπ : Real.pi ≠ 0 := Real.pi_ne_zero
    have h2 : (k : ℝ) * 44100 = 137000000 := by
      have h1 : (k : ℝ) * Real.pi * 44100 =
          (2 * Real.pi * 13700 * ((5000 : Nat) : ℝ) / 44100) * 44100 := by
        rw [hk]
      push_cast at h1
      have h3 : (2 * Real.pi * 13700 * (5000 : ℝ) / 44100) * 44100 =
          Real.pi * 137000000 := by
        field_simp
        ring
      rw [h3] at h1
      have h4 : Real.pi * ((k : ℝ) * 44100) = Real.pi * 137000000 := by
        ring_nf
        ring_nf at h1
        linarith
      exact mul_left_cancel₀ hπ h4
    have h5 : (k * 44100 : ℤ) = 137000000 := by exact_mod_cast h2
    omega

theorem updating_false_foldl (ops : List Op) (st : BPCWaveInner)
    (h : st.updating = false) : (ops.foldl applyOp st).updating = false := by
  induction ops generalizing st with
  | nil => exact h
  | cons op rest ih =>
    apply ih
    cases op with
    | update t =>
      show ((BPCWaveInner.update st t).getD st).updating = false
      unfold BPCWaveInner.update
      rcases hsw : signal_width t with _ | w
      · exact h
      · rfl
    | next =>
      show st.nextState.updating = false
      unfold BPCWaveInner.nextState
      rw [h]
      simp

/-- C10: the updating flag is false after construction and after every
completed update, so in any serialized sequence of completed update and next
calls on the shared state the renderer never observes the flag set and the
next emitted sample always comes from the non-placeholder branch (never the
fixed 1.0). -/
theorem claim_C10_no_placeholder (ops : List Op)
    (hops : ∀ t, Op.update t ∈ ops → signal_width t ≠ none) :
    BPCWaveInner.init.updating = false ∧
    (∀ st st2 t, BPCWaveInner.update st t = some st2 →
      st2.updating = false) ∧
    (∀ (st : BPCWaveInner) t, Op.update t ∈ ops →
      (BPCWaveInner.update st t).isSome = true) ∧
    (runOps ops).updating = false ∧
    (runOps ops).nextSample =
      (if (runOps ops).pivot ≤ (runOps ops).num_samples + 1 then
        Real.sin (2 * Real.pi * ((68500 / 5 : Nat) : ℝ) *
          (((runOps ops).num_samples + 1 : Nat) : ℝ) / 44100)
       else 0) := by
  have hrun : (runOps ops).updating = false :=
    updating_false_foldl ops BPCWaveInner.init rfl
  refine ⟨rfl, ?_, ?_, hrun, ?_⟩
  · intro st st2 t hu
    unfold BPCWaveInner.update at hu
    rcases hsw : signal_width t with _ | w <;> rw [hsw] at hu
    · cases hu
    · injection hu with hu
      rw [← hu]
  · intro st t hmem
    have hne := hops t hmem
    unfold BPCWaveInner.update
    rcases hsw : signal_width t with _ | w
    · exact absurd hsw hne
    · rfl
  · unfold BPCWaveInner.nextSample
    rw [hrun]
    simp
    norm_num [BPC_FREQ, SAMPLE_RATE]

/-- C10 witness: a concrete sequence of completed calls (a next, an update at
`t300`, a next) leaves the updating flag clear. -/
theorem claim_C10_witness :
    (runOps [Op.next, Op.update t300, Op.next]).updating = false :=
  (claim_C10_no_placeholder [Op.next, Op.update t300, Op.next]
    (by
      intro t ht
      simp only [List.mem_cons, List.not_mem_nil, or_false] at ht
      rcases ht with ht | ht | ht
      · cases ht
      · cases ht; decide
      · cases ht)).2.2.2.1

theorem ite_zero_one_cast (P : Prop) [inst : Decidable P] :
    (if P then (0 : Int) else 1) = (((if P then 0 else 1) : Nat) : Int) := by
  split <;> rfl

theorem shl_or_shr (b p : Nat) (hb : b ≤ 1) (hp : p ≤ 1) :
    ((b <<< 1) ||| p) >>> 1 = b := by
  interval_cases b <;> interval_cases p <;> decide

/-- C8: the 2-bit field splitting is lossless: hour12 is recovered from the
symbols at fragments 3-4, minute from 5-7, day from 11-13, month from 14-15,
and the two-digit year from 16-18 together with the top bit carried in bit 1
of the fragment-19 symbol. -/
theorem claim_C8_lossless (t : ZonedDateTime) (hv : Valid t) :
    (∃ a b, code { t with second := 3 } = some (some a) ∧
            code { t with second := 4 } = some (some b) ∧
            a * 4 + b = t.hour) ∧
    (∃ a b c, code { t with second := 5 } = some (some a) ∧
              code { t with second := 6 } = some (some b) ∧
              code { t with second := 7 } = some (some c) ∧
              a * 16 + b * 4 + c = t.minute) ∧
    (∃ a b c, code { t with second := 11 } = some (some a) ∧
              code { t with second := 12 } = some (some b) ∧
              code { t with second := 13 } = some (some c) ∧
              a * 16 + b * 4 + c = t.day) ∧
    (∃ a b, code { t with second := 14 } = some (some a) ∧
            code { t with second := 15 } = some (some b) ∧
            a * 4 + b = t.month) ∧
    (∃ a b c dd, code { t with second := 16 } = some (some a) ∧
                 code { t with second := 17 } = some (some b) ∧
                 code { t with second := 18 } = some (some c) ∧
                 code { t with second := 19 } = some (some dd) ∧
                 (((dd >>> 1) * 64 + a * 16 + b * 4 + c : Nat) : Int) =
                   t.year - 2000) := by
  obtain ⟨y, mo, d, wd, pm, h, mi, s⟩ := t
  unfold Valid at hv
  dsimp only at hv
  obtain ⟨h1, h2, h3, h4, h5, h6, h7, h8, h9, h10, h11, h12⟩ := hv
  dsimp only
  refine ⟨⟨h >>> 2, h &&& 3, rfl, rfl, ?_⟩,
          ⟨mi >>> 4, (mi >>> 2) &&& 3, mi &&& 3, rfl, rfl, rfl, ?_⟩,
          ⟨d >>> 4, (d >>> 2) &&& 3, d &&& 3, rfl, rfl, rfl, ?_⟩,
          ⟨mo >>> 2, mo &&& 3, rfl, rfl, ?_⟩, ?_⟩
  · simp only [shr2_eq_div, and3_eq_mod]; omega
  · simp only [shr4_eq_div, shr2_eq_div, and3_eq_mod]; omega
  · simp only [shr4_eq_div, shr2_eq_div, and3_eq_mod]; omega
  · simp only [shr2_eq_div, and3_eq_mod]; omega
  · obtain ⟨m, hm99, hmeq⟩ : ∃ m : Nat, m ≤ 99 ∧ y - 2000 = (m : Int) :=
      ⟨(y - 2000).toNat, by omega, by omega⟩
    refine ⟨(Int.land ((y - 2000) >>> (4 : Int)) 3).toNat,
            (Int.land ((y - 2000) >>> (2 : Int)) 3).toNat,
            (Int.land (y - 2000) 3).toNat,
            (Int.lor ((Int.land ((y - 2000) >>> (6 : Int)) 1) <<< (1 : Int))
              (if (d + count_ones mo +
                    count_ones ((Int.land (y - 2000) 63).toNat)) % 2 = 0
               then (0 : Int) else 1)).toNat,
            rfl, rfl, rfl, rfl, ?_⟩
    rw [hmeq]
    simp only [int_shr2, int_shr4, int_shr6, int_land3, int_land1, int_land63,
      int_shl1, ite_zero_one_cast, int_lor_nat, int_toNat_nat]
    norm_cast
    have hb : (m >>> 6) &&& 1 ≤ 1 := by rw [and1_eq_mod]; omega
    rw [shl_or_shr _ _ hb (by split <;> omega)]
    simp only [and3_eq_mod, and1_eq_mod, shr6_eq_div, shr4_eq_div, shr2_eq_div]
    omega

/-- C8 witness: the decomposition theorem applied at the concrete timestamp
`t300`, hour group. -/
theorem claim_C8_witness :
    ∃ a b, code { t300 with second := 3 } = some (some a) ∧
           code { t300 with second := 4 } = some (some b) ∧
           a * 4 + b = t300.hour :=
  (claim_C8_lossless t300 (by decide)).1

end Bpcsync
